import Mathlib

/-!
Shallow embedding of `src/server.js`: a flat-file product record store
exposed through HTTP handlers (Express).  The persisted state is the JSON
array in `products.json`, modelled as a `List Product`; the managed asset
directory (`uploads/`) is modelled as a list of stored reference strings.
Handlers are modelled as pure functions from the persisted state (plus the
request data and the outcomes of the fallible file-system primitives) to a
response value and the new persisted state.
-/

namespace Fedex

/-- One entry of a record's `events` array (seeded at creation in
`app.post /api/products`, src/server.js lines 118-125). -/
structure Event where
  description : String
  timestamp : String
  location : String
  completed : Bool
deriving Repr, DecidableEq

/-- A JavaScript number as produced by `Number.parseFloat`: either `NaN`
or a decimal value, carried exactly as `mantissa / 10 ^ scale` with no
trailing zero in the fraction (so equal decimals are equal terms, as the
corresponding JS numbers are).  The source never does arithmetic on
weights, so this exact carrier is faithful for the values the store
handles. -/
inductive JSNum where
  | nan
  | num (mantissa : ℤ) (scale : ℕ)
deriving Repr, DecidableEq

/-- A product record as built by `app.post /api/products`
(src/server.js lines 105-128) and stored in `products.json`. -/
structure Product where
  trackingNumber : String
  recipientName : String
  recipientAddress : String
  senderName : String
  weight : JSNum
  serviceType : String
  status : String
  estimatedDelivery : String
  packageImage : String
  events : List Event
  createdAt : String
  isGlobal : Bool
deriving Repr, DecidableEq

/-- Decimal digit test, as used by `Number.parseFloat` on plain decimal
strings. -/
def isDigit (c : Char) : Bool :=
  '0' ≤ c && c ≤ '9'

/-- Value of a digit string read left to right. -/
def digitsVal (l : List Char) : ℕ :=
  l.foldl (fun a c => 10 * a + (c.toNat - 48)) 0

/-- Drop the trailing `'0'` characters of a fraction digit string (they
do not change the denoted number, and JS compares numbers by value). -/
def trimZeros (l : List Char) : List Char :=
  (l.reverse.dropWhile (fun c => c = '0')).reverse

/-- Model of JavaScript `Number.parseFloat` on the plain decimal literals
the server handles: optional sign, integer digits, optional fraction
digits; `NaN` when no digits are found (src/server.js lines 110 and 166
pass form-data strings straight to `Number.parseFloat`). -/
def parseFloat (s : String) : JSNum :=
  let cs := s.toList
  let sign : ℤ × List Char :=
    match cs with
    | '-' :: r => (-1, r)
    | '+' :: r => (1, r)
    | _ => (1, cs)
  let intPart := sign.2.takeWhile isDigit
  let rest := sign.2.dropWhile isDigit
  let fracPart : List Char :=
    match rest with
    | '.' :: r => r.takeWhile isDigit
    | _ => []
  let frac := trimZeros fracPart
  if intPart.isEmpty && fracPart.isEmpty then JSNum.nan
  else
    JSNum.num (sign.1 * (digitsVal intPart * 10 ^ frac.length + digitsVal frac))
      frac.length

/-- JavaScript `a || b` where `a` is a possibly-absent string field of
`req.body` (`none` models `undefined`): `b` is used when `a` is absent or
empty (falsy). -/
def jsOr (a : Option String) (b : String) : String :=
  match a with
  | none => b
  | some s => if s = "" then b else s

/-- JavaScript `s.startsWith(pre)`, computed on the character sequences. -/
def jsStartsWith (s pre : String) : Bool :=
  pre.toList.isPrefixOf s.toList

/-- Split a character sequence into the `/`-separated path segments, as
`path.join` sees them. -/
def splitOnSlash : List Char → List String
  | [] => [""]
  | c :: rest =>
    match splitOnSlash rest with
    | [] => [""]
    | seg :: segs =>
      if c = '/' then "" :: seg :: segs
      else String.mk (c :: seg.toList) :: segs

/-- Path normalization as performed by Node `path.join`: empty and `.`
segments are dropped, `..` pops the previous segment (clamping at the
root).  `acc` holds the already-normalized prefix, reversed. -/
def normJoin (acc : List String) : List String → List String
  | [] => acc.reverse
  | seg :: rest =>
    if seg = "" ∨ seg = "." then normJoin acc rest
    else if seg = ".." then normJoin acc.tail rest
    else normJoin (seg :: acc) rest

/-- The server directory `__dirname`, as resolved path segments. -/
def serverDir : List String := ["app"]

/-- Model of `path.join(__dirname, ref)` (src/server.js line 201): the
segments of `ref` appended to the server directory and normalized, so a
`..` inside `ref` escapes toward the file-system root. -/
def joinDirname (ref : String) : List String :=
  normJoin serverDir.reverse (splitOnSlash ref.toList)

/-- The managed asset directory `uploads/` (src/server.js line 16), as
resolved path segments; a resolved path is under it exactly when this is
a prefix. -/
def uploadsDir : List String := ["app", "uploads"]

/-- The fixed placeholder image URL used by `app.post /api/products`
(src/server.js line 117) when neither an upload nor an `imageUrl` is
supplied. -/
def placeholderUrl : String :=
  "https://images.unsplash.com/photo-1558618666-fcd25c85cd64?w=200&h=200&fit=crop&crop=center"

/-- The contents of the backing medium `products.json` as seen by
`fs.readFileSync` + `JSON.parse`: either a readable array of records, or
a read/parse fault (missing, unreadable or corrupt file). -/
inductive ReadState where
  | ok (products : List Product)
  | fault
deriving Repr, DecidableEq

/-- `readProducts` (src/server.js lines 56-64): returns the parsed array,
and on any read or parse error logs and returns `[]`. -/
def readProducts : ReadState → List Product
  | ReadState.ok ps => ps
  | ReadState.fault => []

/-- The body of a POST /api/products request (multipart form fields).
Fields the handler reads with a `||` fallback are `Option String`
(`none` = absent); the remaining fields are copied verbatim into the
record, so they are carried as the strings the handler stores. -/
structure InsertBody where
  trackingNumber : Option String
  recipientName : String
  recipientAddress : String
  senderName : String
  weight : String
  serviceType : String
  status : String
  estimatedDelivery : String
  imageUrl : Option String
deriving Repr, DecidableEq

/-- The `productData` object built by `app.post /api/products`
(src/server.js lines 105-128).  `file` is `req.file` (the multer-stored
upload filename, if any); `gen` is the random token
`Math.random().toString().substr(2, 10)`; `tsEvent` and `tsCreated` are
the two `new Date().toISOString()` calls. -/
def mkProductData (body : InsertBody) (file : Option String)
    (gen tsEvent tsCreated : String) : Product :=
  { trackingNumber := jsOr body.trackingNumber gen
    recipientName := body.recipientName
    recipientAddress := body.recipientAddress
    senderName := body.senderName
    weight := parseFloat body.weight
    serviceType := body.serviceType
    status := body.status
    estimatedDelivery := body.estimatedDelivery
    packageImage :=
      match file with
      | some f => "/uploads/" ++ f
      | none => jsOr body.imageUrl placeholderUrl
    events := [{ description := "Package created", timestamp := tsEvent,
                 location := "Origin facility", completed := true }]
    createdAt := tsCreated
    isGlobal := false }

/-- Response of `app.post /api/products`: 400 duplicate key, 201 with the
created record, or 500 when `writeProducts` fails. -/
inductive InsertResult where
  | conflict
  | created (p : Product)
  | writeFailure
deriving Repr, DecidableEq

/-- `app.post /api/products` (src/server.js lines 100-148): read the
store, build `productData`, reject with `Conflict` when the tracking
number already exists, otherwise append and persist.  `writeOk` models
whether `fs.writeFileSync` succeeds (src/server.js lines 66-74); on
failure the handler returns 500 and the file is unchanged. -/
def postProduct (st : ReadState) (body : InsertBody) (file : Option String)
    (gen tsEvent tsCreated : String) (writeOk : Bool) :
    InsertResult × ReadState :=
  let products := readProducts st
  let productData := mkProductData body file gen tsEvent tsCreated
  if products.any (fun p => p.trackingNumber = productData.trackingNumber) then
    (InsertResult.conflict, st)
  else
    if writeOk then
      (InsertResult.created productData, ReadState.ok (products ++ [productData]))
    else
      (InsertResult.writeFailure, st)

/-- `app.get /api/products` (src/server.js lines 82-85). -/
def listAll (st : ReadState) : List Product :=
  readProducts st

/-- `app.get /api/products/:trackingNumber` (src/server.js lines 88-97):
`Array.prototype.find`; `none` models the 404 response. -/
def getByKey (st : ReadState) (key : String) : Option Product :=
  (readProducts st).find? (fun p => p.trackingNumber = key)

/-- No two records share a `trackingNumber`. -/
def UniqueKeys (ps : List Product) : Prop :=
  (ps.map Product.trackingNumber).Nodup

instance (ps : List Product) : Decidable (UniqueKeys ps) := by
  unfold UniqueKeys; infer_instance

/-- One POST request's data: body, optional stored upload, the random
token, the two timestamps, and whether the persist succeeds. -/
structure InsertOp where
  body : InsertBody
  file : Option String
  gen : String
  tsEvent : String
  tsCreated : String
  writeOk : Bool
deriving Repr, DecidableEq

/-- The store state after one POST request. -/
def applyInsert (st : ReadState) (op : InsertOp) : ReadState :=
  (postProduct st op.body op.file op.gen op.tsEvent op.tsCreated op.writeOk).2

/-- The store state after a sequence of POST requests. -/
def runInserts (st : ReadState) (ops : List InsertOp) : ReadState :=
  ops.foldl applyInsert st

/-- JavaScript `Array.prototype.findIndex`, with `none` for `-1`. -/
def findIndexO (p : α → Bool) : List α → Option ℕ
  | [] => none
  | a :: l => if p a then some 0 else (findIndexO p l).map (· + 1)

/-- The body of a PUT /api/products/:trackingNumber request.  Every field
the handler reads is filled with a `||` (or `?:`) fallback to the prior
value, so each is `Option String` (`none` = absent).  A `trackingNumber`
field may be supplied but is never read by the handler. -/
structure UpdateBody where
  trackingNumber : Option String
  recipientName : Option String
  recipientAddress : Option String
  senderName : Option String
  weight : Option String
  serviceType : Option String
  status : Option String
  estimatedDelivery : Option String
  imageUrl : Option String
deriving Repr, DecidableEq

/-- The `updatedProduct` object built by `app.put` (src/server.js lines
161-171): spread of the prior record, then field-by-field `||` merges.
`req.body.trackingNumber` does not occur in the handler, so the identity
field comes from the spread alone. -/
def mergeProduct (prior : Product) (body : UpdateBody) (file : Option String) :
    Product :=
  { prior with
    recipientName := jsOr body.recipientName prior.recipientName
    recipientAddress := jsOr body.recipientAddress prior.recipientAddress
    senderName := jsOr body.senderName prior.senderName
    weight :=
      match body.weight with
      | some w => if w = "" then prior.weight else parseFloat w
      | none => prior.weight
    serviceType := jsOr body.serviceType prior.serviceType
    status := jsOr body.status prior.status
    estimatedDelivery := jsOr body.estimatedDelivery prior.estimatedDelivery
    packageImage :=
      match file with
      | some f => "/uploads/" ++ f
      | none => jsOr body.imageUrl prior.packageImage }

/-- Response of `app.put /api/products/:trackingNumber`. -/
inductive UpdateResult where
  | notFound
  | updated (p : Product)
  | writeFailure
deriving Repr, DecidableEq

/-- `app.put /api/products/:trackingNumber` (src/server.js lines
151-184): locate by `findIndex`, 404 when absent, otherwise merge,
replace in place and persist.  The handler body performs no file-system
call (the multer upload, if any, was stored before the handler ran), so
the file system `fsFiles` (the set of resolved on-disk paths) passes
through unchanged. -/
def putProduct (st : ReadState) (key : String) (body : UpdateBody)
    (file : Option String) (writeOk : Bool) (fsFiles : List (List String)) :
    UpdateResult × ReadState × List (List String) :=
  let products := readProducts st
  match findIndexO (fun p => p.trackingNumber = key) products with
  | none => (UpdateResult.notFound, st, fsFiles)
  | some index =>
    match products[index]? with
    | none => (UpdateResult.notFound, st, fsFiles)
    | some prior =>
      let updatedProduct := mergeProduct prior body file
      let products := products.set index updatedProduct
      if writeOk then
        (UpdateResult.updated updatedProduct, ReadState.ok products, fsFiles)
      else
        (UpdateResult.writeFailure, st, fsFiles)

/-- Response of `app.delete /api/products/:trackingNumber`.  The 200
branch carries only the fixed message object the handler serialises
(src/server.js line 208). -/
inductive DeleteResult where
  | notFound
  | deleted (message : String)
  | writeFailure
deriving Repr, DecidableEq

/-- `app.delete /api/products/:trackingNumber` (src/server.js lines
187-216): locate by `findIndex`, 404 when absent; otherwise splice the
record out, and — when the reference is truthy and starts with
`/uploads/` — resolve it with `path.join(__dirname, ...)` and unlink the
resolved file if it exists (lines 199-205, before the persist); then
persist and answer with a success message.  `fsFiles` models the file
system as the list of resolved on-disk paths; `existsSync` is membership
and `unlinkSync` is `List.erase`. -/
def deleteProduct (st : ReadState) (key : String) (writeOk : Bool)
    (fsFiles : List (List String)) :
    DeleteResult × ReadState × List (List String) :=
  let products := readProducts st
  match findIndexO (fun p => p.trackingNumber = key) products with
  | none => (DeleteResult.notFound, st, fsFiles)
  | some index =>
    match products[index]? with
    | none => (DeleteResult.notFound, st, fsFiles)
    | some deletedProduct =>
      let products := products.eraseIdx index
      let imagePath := joinDirname deletedProduct.packageImage
      let fsFiles :=
        if jsStartsWith deletedProduct.packageImage "/uploads/"
            && fsFiles.contains imagePath then
          fsFiles.erase imagePath
        else fsFiles
      if writeOk then
        (DeleteResult.deleted "Product deleted successfully",
         ReadState.ok products, fsFiles)
      else
        (DeleteResult.writeFailure, st, fsFiles)

/-- Fine-grained model of two concurrent POST /api/products calls in an
execution where the file read and the file write of each handler are
separate steps with no lock or queue between them — the source contains
no serialization primitive around lines 100-148.  The schedule modelled
here is read₁, read₂, write₁, write₂: each handler snapshots the file
before either has written, so each checks for a conflict and writes its
own snapshot plus its own record. -/
def twoInsertsInterleaved (init : List Product) (d1 d2 : Product) :
    InsertResult × InsertResult × List Product :=
  let snap1 := init
  let snap2 := init
  let step1 : InsertResult × List Product :=
    if snap1.any (fun p => p.trackingNumber = d1.trackingNumber) then
      (InsertResult.conflict, init)
    else (InsertResult.created d1, snap1 ++ [d1])
  let step2 : InsertResult × List Product :=
    if snap2.any (fun p => p.trackingNumber = d2.trackingNumber) then
      (InsertResult.conflict, step1.2)
    else (InsertResult.created d2, snap2 ++ [d2])
  (step1.1, step2.1, step2.2)

/-- The same two handler executions run one after the other (the schedule
the synchronous source actually gets on a single-threaded runtime):
read₁, write₁, read₂, write₂. -/
def twoInsertsSequential (init : List Product) (d1 d2 : Product) :
    InsertResult × InsertResult × List Product :=
  let step1 : InsertResult × List Product :=
    if init.any (fun p => p.trackingNumber = d1.trackingNumber) then
      (InsertResult.conflict, init)
    else (InsertResult.created d1, init ++ [d1])
  let step2 : InsertResult × List Product :=
    if step1.2.any (fun p => p.trackingNumber = d2.trackingNumber) then
      (InsertResult.conflict, step1.2)
    else (InsertResult.created d2, step1.2 ++ [d2])
  (step1.1, step2.1, step2.2)

/-! ### Sample data for concrete runs -/

/-- A concrete stored record with key `TN1` and an internally managed
image reference (weight `2.5`, carried as `25 / 10 ^ 1`). -/
def pTN1 : Product :=
  { trackingNumber := "TN1", recipientName := "A", recipientAddress := "addr",
    senderName := "S", weight := JSNum.num 25 1, serviceType := "standard",
    status := "created", estimatedDelivery := "2025-01-01",
    packageImage := "/uploads/image1.png",
    events := [{ description := "Package created", timestamp := "t0",
                 location := "Origin facility", completed := true }],
    createdAt := "t0", isGlobal := false }

/-- A second concrete record, different from `pTN1` in every field and
carrying an externally supplied image URL. -/
def pTN2 : Product :=
  { trackingNumber := "TN2", recipientName := "B", recipientAddress := "bdr",
    senderName := "T", weight := JSNum.num 7 0, serviceType := "express",
    status := "shipped", estimatedDelivery := "2025-02-02",
    packageImage := "https://example.com/pic.png",
    events := [{ description := "Package created", timestamp := "t1",
                 location := "Origin facility", completed := true }],
    createdAt := "t1", isGlobal := false }

/-- The POST body of concrete scenario 1 of the spec (no tracking number
supplied). -/
def body1 : InsertBody :=
  { trackingNumber := none, recipientName := "A", recipientAddress := "addr",
    senderName := "S", weight := "2.5", serviceType := "standard",
    status := "created", estimatedDelivery := "2025-01-01", imageUrl := none }

/-- The same POST body with an explicit tracking number `TN1`. -/
def bodyTN1 : InsertBody :=
  { body1 with trackingNumber := some "TN1" }

/-- An update body supplying only the `status` field. -/
def statusOnly (s : Option String) : UpdateBody :=
  { trackingNumber := none, recipientName := none, recipientAddress := none,
    senderName := none, weight := none, serviceType := none, status := s,
    estimatedDelivery := none, imageUrl := none }

/-- A POST request inserting key `TN1` (random token `g1`). -/
def opTN1a : InsertOp :=
  { body := bodyTN1, file := none, gen := "g1", tsEvent := "t",
    tsCreated := "t", writeOk := true }

/-- A second POST request inserting the same key `TN1` (random token
`g2`). -/
def opTN1b : InsertOp :=
  { body := bodyTN1, file := none, gen := "g2", tsEvent := "t",
    tsCreated := "t", writeOk := true }

/-- An update body mixing the merge cases: non-empty values for
`recipientName`, `weight` and `status`; empty strings for
`recipientAddress` and `estimatedDelivery`; omitted `senderName` and
`serviceType`; a supplied `trackingNumber` (ignored by the handler) and a
supplied `imageUrl`. -/
def bodyMixed : UpdateBody :=
  { trackingNumber := some "ZZZ", recipientName := some "R",
    recipientAddress := some "", senderName := none, weight := some "3.5",
    serviceType := none, status := some "delivered",
    estimatedDelivery := some "", imageUrl := some "https://new.example/img.png" }

/-- An update body supplying only an external `imageUrl`. -/
def bodyImgUrl : UpdateBody :=
  { trackingNumber := none, recipientName := none, recipientAddress := none,
    senderName := none, weight := none, serviceType := none, status := none,
    estimatedDelivery := none, imageUrl := some "https://new.example/img.png" }

/-- A record whose image reference passes the `/uploads/` string-prefix
guard but resolves, through `path.join`, to the store file itself —
outside the managed asset directory. -/
def pEvil : Product :=
  { pTN1 with
    trackingNumber := "TNE"
    packageImage := "/uploads/../products.json" }

/-! ### Helper lemmas -/

lemma findIndexO_eq_none {p : α → Bool} {l : List α}
    (h : findIndexO p l = none) : l.find? p = none := by
  induction l with
  | nil => rfl
  | cons a t ih =>
    cases ha : p a with
    | true => simp [findIndexO, ha] at h
    | false =>
      simp only [findIndexO, ha, Bool.false_eq_true, if_false, ite_false,
        Option.map_eq_none'] at h
      rw [List.find?_cons_of_neg _ (by simp [ha])]
      exact ih h

lemma findIndexO_eq_some {p : α → Bool} {l : List α} {i : ℕ}
    (h : findIndexO p l = some i) : l[i]? = l.find? p := by
  induction l generalizing i with
  | nil => simp [findIndexO] at h
  | cons a t ih =>
    cases ha : p a with
    | true =>
      simp only [findIndexO, ha, if_true, ite_true, Option.some.injEq] at h
      subst h
      simp [List.find?_cons_of_pos _ ha]
    | false =>
      simp only [findIndexO, ha, Bool.false_eq_true, if_false, ite_false,
        Option.map_eq_some'] at h
      obtain ⟨j, hj, rfl⟩ := h
      rw [List.find?_cons_of_neg _ (by simp [ha])]
      simpa using ih hj

lemma findIndexO_lt_length {p : α → Bool} {l : List α} {i : ℕ}
    (h : findIndexO p l = some i) : i < l.length := by
  induction l generalizing i with
  | nil => simp [findIndexO] at h
  | cons a t ih =>
    cases ha : p a with
    | true =>
      simp only [findIndexO, ha, if_true, ite_true, Option.some.injEq] at h
      subst h
      simp
    | false =>
      simp only [findIndexO, ha, Bool.false_eq_true, if_false, ite_false,
        Option.map_eq_some'] at h
      obtain ⟨j, hj, rfl⟩ := h
      have := ih hj
      simp only [List.length_cons]
      omega

/-- Erasing the first record matching a key from a store with unique keys
leaves no record matching that key. -/
lemma find?_eraseIdx_eq_none {l : List Product} {key : String} {i : ℕ}
    (hu : UniqueKeys l)
    (h : findIndexO (fun p => p.trackingNumber = key) l = some i) :
    (l.eraseIdx i).find? (fun p => p.trackingNumber = key) = none := by
  induction l generalizing i with
  | nil => simp [findIndexO] at h
  | cons a t ih =>
    rw [UniqueKeys, List.map_cons, List.nodup_cons] at hu
    by_cases ha : a.trackingNumber = key
    · simp only [findIndexO, ha, decide_True, if_true, ite_true,
        Option.some.injEq] at h
      subst h
      rw [List.eraseIdx_zero, List.tail_cons, List.find?_eq_none]
      intro b hb
      simp only [decide_eq_true_eq]
      intro hbk
      exact hu.1 (by rw [ha, ← hbk]; exact List.mem_map_of_mem _ hb)
    · simp only [findIndexO, ha, decide_False, Bool.false_eq_true, if_false,
        ite_false, Option.map_eq_some'] at h
      obtain ⟨j, hj, rfl⟩ := h
      rw [List.eraseIdx_cons_succ, List.find?_cons_of_neg _ (by simpa using ha)]
      exact ih hu.2 hj

/-- Appending a record whose key occurs in none of the existing records
preserves key uniqueness. -/
lemma uniqueKeys_append_singleton {ps : List Product} {d : Product}
    (h : UniqueKeys ps)
    (hd : ps.any (fun p => p.trackingNumber = d.trackingNumber) = false) :
    UniqueKeys (ps ++ [d]) := by
  rw [UniqueKeys, List.map_append, List.nodup_append]
  refine ⟨h, List.nodup_singleton _, ?_⟩
  simp only [List.map_cons, List.map_nil, List.disjoint_singleton]
  simp only [List.any_eq_false, decide_eq_true_eq] at hd
  intro hmem
  obtain ⟨p, hp, hpk⟩ := List.mem_map.mp hmem
  exact hd p hp hpk

/-- `postProduct` written as a single conditional, for case analysis. -/
lemma postProduct_eq (st : ReadState) (body : InsertBody) (file : Option String)
    (gen tsEvent tsCreated : String) (writeOk : Bool) :
    postProduct st body file gen tsEvent tsCreated writeOk =
      if (readProducts st).any (fun p =>
          p.trackingNumber = (mkProductData body file gen tsEvent tsCreated).trackingNumber) then
        (InsertResult.conflict, st)
      else if writeOk then
        (InsertResult.created (mkProductData body file gen tsEvent tsCreated),
         ReadState.ok (readProducts st ++ [mkProductData body file gen tsEvent tsCreated]))
      else
        (InsertResult.writeFailure, st) := rfl

/-- One POST request keeps the keys of the persisted collection unique. -/
lemma uniqueKeys_postProduct {st : ReadState} (body : InsertBody)
    (file : Option String) (gen tsEvent tsCreated : String) (writeOk : Bool)
    (h : UniqueKeys (readProducts st)) :
    UniqueKeys (readProducts (postProduct st body file gen tsEvent tsCreated writeOk).2) := by
  rw [postProduct_eq]
  split_ifs with h1 h2
  · exact h
  · exact uniqueKeys_append_singleton h (by simpa using h1)
  · exact h

/-- Any sequence of POST requests keeps the keys of the persisted
collection unique. -/
lemma uniqueKeys_runInserts (ops : List InsertOp) (st : ReadState)
    (h : UniqueKeys (readProducts st)) :
    UniqueKeys (readProducts (runInserts st ops)) := by
  induction ops generalizing st with
  | nil => exact h
  | cons op rest ih =>
    exact ih _ (uniqueKeys_postProduct op.body op.file op.gen op.tsEvent
      op.tsCreated op.writeOk h)

lemma findIndexO_eq_none_of_find? {p : α → Bool} {l : List α}
    (h : l.find? p = none) : findIndexO p l = none := by
  cases hf : findIndexO p l with
  | none => rfl
  | some i =>
    have h1 := findIndexO_eq_some hf
    have h2 := findIndexO_lt_length hf
    rw [h, List.getElem?_eq_none_iff] at h1
    omega

/-- A found key yields an index pointing at the `find?` result. -/
lemma getByKey_some_elim {st : ReadState} {key : String} {d : Product}
    (h : getByKey st key = some d) :
    ∃ i, findIndexO (fun p => p.trackingNumber = key) (readProducts st) = some i
      ∧ (readProducts st)[i]? = some d ∧ i < (readProducts st).length := by
  cases hfi : findIndexO (fun p => p.trackingNumber = key) (readProducts st) with
  | none =>
    simp only [getByKey] at h
    rw [findIndexO_eq_none hfi] at h
    exact absurd h (by simp)
  | some i =>
    refine ⟨i, rfl, ?_, findIndexO_lt_length hfi⟩
    rw [findIndexO_eq_some hfi]
    exact h

/-- `deleteProduct` when the key is absent. -/
lemma deleteProduct_of_find_none {st : ReadState} {key : String}
    (wOk : Bool) (fs : List (List String))
    (h : findIndexO (fun p => p.trackingNumber = key) (readProducts st) = none) :
    deleteProduct st key wOk fs = (DeleteResult.notFound, st, fs) := by
  simp [deleteProduct, h]

/-- `deleteProduct` when the key is found, written componentwise. -/
lemma deleteProduct_of_find_some {st : ReadState} {key : String} {i : ℕ}
    {d : Product} (wOk : Bool) (fs : List (List String))
    (hi : findIndexO (fun p => p.trackingNumber = key) (readProducts st) = some i)
    (hd : (readProducts st)[i]? = some d) :
    deleteProduct st key wOk fs =
      (if wOk then DeleteResult.deleted "Product deleted successfully"
       else DeleteResult.writeFailure,
       if wOk then ReadState.ok ((readProducts st).eraseIdx i) else st,
       if jsStartsWith d.packageImage "/uploads/"
           && fs.contains (joinDirname d.packageImage)
       then fs.erase (joinDirname d.packageImage) else fs) := by
  cases wOk <;> simp [deleteProduct, hi, hd]

/-- `putProduct` when the key is absent. -/
lemma putProduct_of_find_none {st : ReadState} {key : String}
    (body : UpdateBody) (file : Option String) (wOk : Bool)
    (fs : List (List String))
    (h : findIndexO (fun p => p.trackingNumber = key) (readProducts st) = none) :
    putProduct st key body file wOk fs = (UpdateResult.notFound, st, fs) := by
  simp [putProduct, h]

/-- `putProduct` when the key is found, written componentwise. -/
lemma putProduct_of_find_some {st : ReadState} {key : String} {i : ℕ}
    {d : Product} (body : UpdateBody) (file : Option String) (wOk : Bool)
    (fs : List (List String))
    (hi : findIndexO (fun p => p.trackingNumber = key) (readProducts st) = some i)
    (hd : (readProducts st)[i]? = some d) :
    putProduct st key body file wOk fs =
      (if wOk then UpdateResult.updated (mergeProduct d body file)
       else UpdateResult.writeFailure,
       if wOk then
         ReadState.ok ((readProducts st).set i (mergeProduct d body file))
       else st,
       fs) := by
  cases wOk <;> simp [putProduct, hi, hd]

/-- A `||`-merged field is overwritten by a supplied non-empty value. -/
lemma jsOr_of_some {a : String} (b : String) (h : a ≠ "") :
    jsOr (some a) b = a := by
  simp [jsOr, h]

/-- A `||`-merged field retains the fallback when the supplied value is
absent or empty. -/
lemma jsOr_retain {o : Option String} (b : String)
    (h : o = none ∨ o = some "") : jsOr o b = b := by
  rcases h with rfl | rfl <;> simp [jsOr]

/-! ### Claims -/

/-- C1: for every sequence of insert operations starting from a store
with unique keys, no two records in the store ever share a
`trackingNumber`; and an insert whose (supplied or generated) key already
exists in the store returns `Conflict` (the 400 response of src/server.js
line 132) and leaves the stored collection unchanged. -/
theorem insert_uniqueness_and_conflict (ops : List InsertOp) (st : ReadState)
    (hu : UniqueKeys (readProducts st)) :
    UniqueKeys (readProducts (runInserts st ops))
    ∧ ∀ (body : InsertBody) (file : Option String)
        (gen tsEvent tsCreated : String) (writeOk : Bool),
        (∃ p ∈ readProducts st,
          p.trackingNumber = (mkProductData body file gen tsEvent tsCreated).trackingNumber) →
        postProduct st body file gen tsEvent tsCreated writeOk
          = (InsertResult.conflict, st) := by
  refine ⟨uniqueKeys_runInserts ops st hu, ?_⟩
  intro body file gen tsEvent tsCreated writeOk hex
  rw [postProduct_eq, if_pos]
  rw [List.any_eq_true]
  obtain ⟨p, hp, hk⟩ := hex
  exact ⟨p, hp, by simpa using hk⟩

/-- Witness for C1: two inserts of `TN1` into the empty store leave the
keys unique with exactly one `TN1` record, and the second insert (against
the store already holding `TN1`) answers `Conflict` with the store
unchanged. -/
theorem insert_uniqueness_and_conflict_witness :
    UniqueKeys (readProducts (runInserts (ReadState.ok []) [opTN1a, opTN1b]))
    ∧ postProduct (ReadState.ok [pTN1]) bodyTN1 none "g" "t" "t" true
        = (InsertResult.conflict, ReadState.ok [pTN1])
    ∧ (readProducts (runInserts (ReadState.ok []) [opTN1a, opTN1b])).countP
        (fun p => p.trackingNumber = "TN1") = 1 :=
  ⟨(insert_uniqueness_and_conflict [opTN1a, opTN1b] (ReadState.ok [])
      (by decide)).1,
   (insert_uniqueness_and_conflict [] (ReadState.ok [pTN1]) (by decide)).2
      bodyTN1 none "g" "t" "t" true (by decide),
   by decide⟩

/-- Counterexample to C2: the source serializes nothing — there is no
queue or lock in src/server.js — so in an execution where the file read
and the file write of each POST handler are separate steps, two inserts
of distinct fresh keys can both report 201 Created while the final
persisted collection holds only the second record: the first write is
lost. -/
theorem interleaved_inserts_lose_update_cx :
    twoInsertsInterleaved [] pTN1 pTN2
      = (InsertResult.created pTN1, InsertResult.created pTN2, [pTN2])
    ∧ pTN1 ∉ [pTN2] := by decide

/-- C2 amended: the mutating handlers perform their load–modify–write
with no explicit serialization primitive; run one after the other
(as the synchronous single-threaded source guarantees) two inserts of
distinct fresh keys both commit, but in an interleaved execution of
their read and write steps (possible in any parallel port, which the
spec demands be safe) both report success while the first record is
missing from the final collection — a lost update. -/
theorem no_serialization_lost_update (init : List Product) (d1 d2 : Product)
    (h1 : ∀ p ∈ init, p.trackingNumber ≠ d1.trackingNumber)
    (h2 : ∀ p ∈ init, p.trackingNumber ≠ d2.trackingNumber)
    (h12 : d1.trackingNumber ≠ d2.trackingNumber) :
    twoInsertsSequential init d1 d2
      = (InsertResult.created d1, InsertResult.created d2, (init ++ [d1]) ++ [d2])
    ∧ twoInsertsInterleaved init d1 d2
      = (InsertResult.created d1, InsertResult.created d2, init ++ [d2])
    ∧ d1 ∉ init ++ [d2] := by
  have c1 : init.any (fun p => p.trackingNumber = d1.trackingNumber) = false := by
    simp only [List.any_eq_false, decide_eq_true_eq]
    exact h1
  have c2 : init.any (fun p => p.trackingNumber = d2.trackingNumber) = false := by
    simp only [List.any_eq_false, decide_eq_true_eq]
    exact h2
  have c2' : (init ++ [d1]).any (fun p => p.trackingNumber = d2.trackingNumber)
      = false := by
    simp only [List.any_eq_false, decide_eq_true_eq, List.mem_append,
      List.mem_singleton]
    rintro p (hp | rfl)
    · exact h2 p hp
    · exact h12
  refine ⟨?_, ?_, ?_⟩
  · simp only [twoInsertsSequential, c1, c2', Bool.false_eq_true, if_false,
      ite_false]
  · simp only [twoInsertsInterleaved, c1, c2, Bool.false_eq_true, if_false,
      ite_false]
  · simp only [List.mem_append, List.mem_singleton]
    rintro (hmem | rfl)
    · exact h1 d1 hmem rfl
    · exact h12 rfl

/-- Witness for C2 amended: concrete fresh records `TN1`, `TN2` over the
empty store. -/
theorem no_serialization_lost_update_witness :
    twoInsertsSequential [] pTN1 pTN2
      = (InsertResult.created pTN1, InsertResult.created pTN2, ([] ++ [pTN1]) ++ [pTN2])
    ∧ twoInsertsInterleaved [] pTN1 pTN2
      = (InsertResult.created pTN1, InsertResult.created pTN2, [] ++ [pTN2])
    ∧ pTN1 ∉ [] ++ [pTN2] :=
  no_serialization_lost_update [] pTN1 pTN2 (by decide) (by decide) (by decide)

/-- Counterexample to C3: a payload that supplies `status` with the empty
string does not overwrite it — the handler merges with `||`
(src/server.js line 168), so the prior value `"created"` is kept instead
of the supplied `""`. -/
theorem update_empty_status_not_overwritten_cx :
    (mergeProduct pTN1 (statusOnly (some "")) none).status = "created"
    ∧ (mergeProduct pTN1 (statusOnly (some "")) none).status ≠ "" := by decide

/-- C3 amended: for every existing record and every update payload, the
merge overwrites exactly the fields supplied with non-empty (truthy)
values and retains the prior value of every field that is omitted or
supplied empty — field by field, for all of `recipientName`,
`recipientAddress`, `senderName`, `serviceType`, `status`,
`estimatedDelivery`, the `?:`-merged `weight`, and `packageImage` (new
upload wins, else a non-empty `imageUrl`, else the prior reference); the
untouched fields (`trackingNumber`, `events`, `createdAt`, `isGlobal`)
always keep their prior values; in particular `update(key, {status: v})`
with non-empty `v` changes only `status`. -/
theorem update_merge_field_semantics (prior : Product) (body : UpdateBody)
    (file : Option String) :
    ((mergeProduct prior body file).trackingNumber = prior.trackingNumber
      ∧ (mergeProduct prior body file).events = prior.events
      ∧ (mergeProduct prior body file).createdAt = prior.createdAt
      ∧ (mergeProduct prior body file).isGlobal = prior.isGlobal)
    ∧ (∀ v, body.recipientName = some v → v ≠ "" →
        (mergeProduct prior body file).recipientName = v)
    ∧ ((body.recipientName = none ∨ body.recipientName = some "") →
        (mergeProduct prior body file).recipientName = prior.recipientName)
    ∧ (∀ v, body.recipientAddress = some v → v ≠ "" →
        (mergeProduct prior body file).recipientAddress = v)
    ∧ ((body.recipientAddress = none ∨ body.recipientAddress = some "") →
        (mergeProduct prior body file).recipientAddress = prior.recipientAddress)
    ∧ (∀ v, body.senderName = some v → v ≠ "" →
        (mergeProduct prior body file).senderName = v)
    ∧ ((body.senderName = none ∨ body.senderName = some "") →
        (mergeProduct prior body file).senderName = prior.senderName)
    ∧ (∀ v, body.serviceType = some v → v ≠ "" →
        (mergeProduct prior body file).serviceType = v)
    ∧ ((body.serviceType = none ∨ body.serviceType = some "") →
        (mergeProduct prior body file).serviceType = prior.serviceType)
    ∧ (∀ v, body.status = some v → v ≠ "" →
        (mergeProduct prior body file).status = v)
    ∧ ((body.status = none ∨ body.status = some "") →
        (mergeProduct prior body file).status = prior.status)
    ∧ (∀ v, body.estimatedDelivery = some v → v ≠ "" →
        (mergeProduct prior body file).estimatedDelivery = v)
    ∧ ((body.estimatedDelivery = none ∨ body.estimatedDelivery = some "") →
        (mergeProduct prior body file).estimatedDelivery
          = prior.estimatedDelivery)
    ∧ (∀ w, body.weight = some w → w ≠ "" →
        (mergeProduct prior body file).weight = parseFloat w)
    ∧ ((body.weight = none ∨ body.weight = some "") →
        (mergeProduct prior body file).weight = prior.weight)
    ∧ (∀ f, file = some f →
        (mergeProduct prior body file).packageImage = "/uploads/" ++ f)
    ∧ (file = none → ∀ u, body.imageUrl = some u → u ≠ "" →
        (mergeProduct prior body file).packageImage = u)
    ∧ (file = none → (body.imageUrl = none ∨ body.imageUrl = some "") →
        (mergeProduct prior body file).packageImage = prior.packageImage)
    ∧ (∀ v, v ≠ "" →
        mergeProduct prior (statusOnly (some v)) none
          = { prior with status := v }) := by
  refine ⟨⟨rfl, rfl, rfl, rfl⟩, ?_, ?_, ?_, ?_, ?_, ?_, ?_, ?_, ?_, ?_, ?_,
    ?_, ?_, ?_, ?_, ?_, ?_, ?_⟩
  · intro v hv hne
    show jsOr body.recipientName prior.recipientName = v
    rw [hv]
    exact jsOr_of_some _ hne
  · intro h
    exact jsOr_retain _ h
  · intro v hv hne
    show jsOr body.recipientAddress prior.recipientAddress = v
    rw [hv]
    exact jsOr_of_some _ hne
  · intro h
    exact jsOr_retain _ h
  · intro v hv hne
    show jsOr body.senderName prior.senderName = v
    rw [hv]
    exact jsOr_of_some _ hne
  · intro h
    exact jsOr_retain _ h
  · intro v hv hne
    show jsOr body.serviceType prior.serviceType = v
    rw [hv]
    exact jsOr_of_some _ hne
  · intro h
    exact jsOr_retain _ h
  · intro v hv hne
    show jsOr body.status prior.status = v
    rw [hv]
    exact jsOr_of_some _ hne
  · intro h
    exact jsOr_retain _ h
  · intro v hv hne
    show jsOr body.estimatedDelivery prior.estimatedDelivery = v
    rw [hv]
    exact jsOr_of_some _ hne
  · intro h
    exact jsOr_retain _ h
  · intro w hw hne
    simp [mergeProduct, hw, hne]
  · rintro (hw | hw) <;> simp [mergeProduct, hw]
  · intro f hf
    simp [mergeProduct, hf]
  · intro hf u hu hne
    simp [mergeProduct, hf, hu, jsOr, hne]
  · intro hf h
    simp only [mergeProduct, hf]
    exact jsOr_retain _ h
  · intro v hv
    simp [mergeProduct, statusOnly, jsOr, hv]

/-- Witness for C3 amended: merging `pTN1` with a payload that supplies
non-empty `recipientName`, `weight`, `status` and `imageUrl`, empty
`recipientAddress` and `estimatedDelivery`, omits `senderName` and
`serviceType`, and supplies a `trackingNumber`: exactly the non-empty
fields are overwritten; and the status-only update changes only
`status`. -/
theorem update_merge_field_semantics_witness :
    (mergeProduct pTN1 bodyMixed none).recipientName = "R"
    ∧ (mergeProduct pTN1 bodyMixed none).recipientAddress
        = pTN1.recipientAddress
    ∧ (mergeProduct pTN1 bodyMixed none).senderName = pTN1.senderName
    ∧ (mergeProduct pTN1 bodyMixed none).serviceType = pTN1.serviceType
    ∧ (mergeProduct pTN1 bodyMixed none).status = "delivered"
    ∧ (mergeProduct pTN1 bodyMixed none).estimatedDelivery
        = pTN1.estimatedDelivery
    ∧ (mergeProduct pTN1 bodyMixed none).weight = parseFloat "3.5"
    ∧ (mergeProduct pTN1 bodyMixed none).packageImage
        = "https://new.example/img.png"
    ∧ (mergeProduct pTN1 bodyMixed none).trackingNumber = pTN1.trackingNumber
    ∧ mergeProduct pTN1 (statusOnly (some "delivered")) none
        = { pTN1 with status := "delivered" } := by
  obtain ⟨hid, hrn, hrnk, hra, hrak, hsn, hsnk, hsv, hsvk, hst, hstk, hed,
    hedk, hw, hwk, hpf, hpu, hpk, hstat⟩ :=
    update_merge_field_semantics pTN1 bodyMixed none
  exact ⟨hrn "R" rfl (by decide), hrak (Or.inr rfl), hsnk (Or.inl rfl),
    hsvk (Or.inl rfl), hst "delivered" rfl (by decide), hedk (Or.inr rfl),
    hw "3.5" rfl (by decide),
    hpu rfl "https://new.example/img.png" rfl (by decide), hid.1,
    hstat "delivered" (by decide)⟩

/-- Counterexample to C4: the 200 response of delete carries the same
fixed message object for two different removed records (src/server.js
line 208 serialises `{message: "Product deleted successfully"}`), so the
removed record itself is not returned to the caller. -/
theorem delete_response_not_record_cx :
    (deleteProduct (ReadState.ok [pTN1]) "TN1" true []).1
      = (deleteProduct (ReadState.ok [pTN2]) "TN2" true []).1
    ∧ pTN1 ≠ pTN2 := by decide

/-- C4 amended: for an absent key delete returns `NotFound` and changes
nothing; for an existing key (in a store with unique keys) it removes
that record from the collection, persists the shrunken collection, and
returns a fixed success message — not the removed record. -/
theorem delete_removes_and_returns_message (st : ReadState) (key : String)
    (fs : List (List String)) :
    (∀ wOk, getByKey st key = none →
      deleteProduct st key wOk fs = (DeleteResult.notFound, st, fs))
    ∧ (∀ d, getByKey st key = some d → UniqueKeys (readProducts st) →
        (deleteProduct st key true fs).1
            = DeleteResult.deleted "Product deleted successfully"
        ∧ ∃ ps', (deleteProduct st key true fs).2.1 = ReadState.ok ps'
            ∧ ps'.find? (fun p => p.trackingNumber = key) = none
            ∧ ps'.length + 1 = (readProducts st).length) := by
  constructor
  · intro wOk h
    refine deleteProduct_of_find_none wOk fs (findIndexO_eq_none_of_find? ?_)
    simpa [getByKey] using h
  · intro d h hu
    obtain ⟨i, hfi, hget, hlt⟩ := getByKey_some_elim h
    rw [deleteProduct_of_find_some true fs hfi hget]
    refine ⟨rfl, (readProducts st).eraseIdx i, rfl, ?_, ?_⟩
    · exact find?_eraseIdx_eq_none hu hfi
    · rw [List.length_eraseIdx_of_lt hlt]
      omega

/-- Witness for C4 amended: deleting an absent key answers `NotFound`;
deleting `TN1` from a one-record store answers the fixed message and
shrinks the store to the empty collection. -/
theorem delete_removes_and_returns_message_witness :
    deleteProduct (ReadState.ok [pTN2]) "TN1" true []
        = (DeleteResult.notFound, ReadState.ok [pTN2], [])
    ∧ ((deleteProduct (ReadState.ok [pTN1]) "TN1" true []).1
          = DeleteResult.deleted "Product deleted successfully"
        ∧ ∃ ps', (deleteProduct (ReadState.ok [pTN1]) "TN1" true []).2.1
              = ReadState.ok ps'
            ∧ ps'.find? (fun p => p.trackingNumber = "TN1") = none
            ∧ ps'.length + 1 = (readProducts (ReadState.ok [pTN1])).length) :=
  ⟨(delete_removes_and_returns_message (ReadState.ok [pTN2]) "TN1" []).1 true
      (by decide),
   (delete_removes_and_returns_message (ReadState.ok [pTN1]) "TN1" []).2 pTN1
      (by decide) (by decide)⟩

/-- Counterexample to C5: a delete whose persist fails has already
unlinked the record's managed asset file (src/server.js deletes the file
at lines 199-205, before the `writeProducts` call at line 207): the 500
failure is reported and the collection is unchanged, but the resolved
asset file `app/uploads/image1.png` is gone. -/
theorem failed_delete_removes_asset_cx :
    deleteProduct (ReadState.ok [pTN1]) "TN1" false
        [["app", "uploads", "image1.png"]]
      = (DeleteResult.writeFailure, ReadState.ok [pTN1], [])
    ∧ joinDirname pTN1.packageImage ∉
        (deleteProduct (ReadState.ok [pTN1]) "TN1" false
          [["app", "uploads", "image1.png"]]).2.2 := by decide

/-- C5 amended: when the write to the backing medium fails, every
mutating operation reports a failure result (`WriteFailure` whenever the
operation got past its own key check and attempted the write) and the
persisted record collection is unchanged — but delete unlinks the removed
record's managed asset file before attempting the write, so that
file-system effect remains visible even though the operation failed. -/
theorem write_failure_discards_collection (st : ReadState) :
    (∀ body file gen tsEvent tsCreated,
      (postProduct st body file gen tsEvent tsCreated false).2 = st
      ∧ ((readProducts st).any (fun p => p.trackingNumber
            = (mkProductData body file gen tsEvent tsCreated).trackingNumber)
              = false →
          (postProduct st body file gen tsEvent tsCreated false).1
            = InsertResult.writeFailure))
    ∧ (∀ key body file fs,
        (putProduct st key body file false fs).2.1 = st
        ∧ (putProduct st key body file false fs).2.2 = fs
        ∧ (∀ d, getByKey st key = some d →
            (putProduct st key body file false fs).1
              = UpdateResult.writeFailure))
    ∧ (∀ key fs, (deleteProduct st key false fs).2.1 = st
        ∧ (∀ d, getByKey st key = some d →
            (deleteProduct st key false fs).1 = DeleteResult.writeFailure))
    ∧ (∀ key fs d, getByKey st key = some d →
        jsStartsWith d.packageImage "/uploads/" = true →
        joinDirname d.packageImage ∈ fs →
        (deleteProduct st key false fs).2.2
          = fs.erase (joinDirname d.packageImage)) := by
  refine ⟨?_, ?_, ?_, ?_⟩
  · intro body file gen tsEvent tsCreated
    constructor
    · rw [postProduct_eq]
      split_ifs with h1 h2
      · rfl
      · exact h2.elim
      · rfl
    · intro hany
      rw [postProduct_eq, hany]
      simp
  · intro key body file fs
    refine ⟨?_, ?_, ?_⟩
    · cases hfi : findIndexO (fun p => p.trackingNumber = key) (readProducts st) with
      | none => rw [putProduct_of_find_none body file false fs hfi]
      | some i =>
        cases hget : (readProducts st)[i]? with
        | none => simp [putProduct, hfi, hget]
        | some d =>
          rw [putProduct_of_find_some body file false fs hfi hget]
          simp
    · cases hfi : findIndexO (fun p => p.trackingNumber = key) (readProducts st) with
      | none => rw [putProduct_of_find_none body file false fs hfi]
      | some i =>
        cases hget : (readProducts st)[i]? with
        | none => simp [putProduct, hfi, hget]
        | some d => rw [putProduct_of_find_some body file false fs hfi hget]
    · intro d h
      obtain ⟨i, hfi, hget, _⟩ := getByKey_some_elim h
      rw [putProduct_of_find_some body file false fs hfi hget]
      simp
  · intro key fs
    constructor
    · cases hfi : findIndexO (fun p => p.trackingNumber = key) (readProducts st) with
      | none => rw [deleteProduct_of_find_none false fs hfi]
      | some i =>
        cases hget : (readProducts st)[i]? with
        | none => simp [deleteProduct, hfi, hget]
        | some d =>
          rw [deleteProduct_of_find_some false fs hfi hget]
          simp
    · intro d h
      obtain ⟨i, hfi, hget, _⟩ := getByKey_some_elim h
      rw [deleteProduct_of_find_some false fs hfi hget]
      simp
  · intro key fs d h hpre hmem
    obtain ⟨i, hfi, hget, _⟩ := getByKey_some_elim h
    rw [deleteProduct_of_find_some false fs hfi hget]
    have hc : (jsStartsWith d.packageImage "/uploads/"
        && fs.contains (joinDirname d.packageImage)) = true := by
      rw [Bool.and_eq_true]
      exact ⟨hpre, List.elem_iff.mpr hmem⟩
    rw [hc]
    simp

/-- Witness for C5 amended: concrete failed insert, update and delete
against one-record stores; each reports its `WriteFailure` result, the
collection is unchanged, and the failed delete's file-system effect is
the erasure of the resolved managed file. -/
theorem write_failure_discards_collection_witness :
    ((postProduct (ReadState.ok []) bodyTN1 none "g" "t" "t" false).2
        = ReadState.ok []
      ∧ (postProduct (ReadState.ok []) bodyTN1 none "g" "t" "t" false).1
        = InsertResult.writeFailure)
    ∧ ((putProduct (ReadState.ok [pTN1]) "TN1" (statusOnly (some "x")) none
        false []).2.1 = ReadState.ok [pTN1]
      ∧ (putProduct (ReadState.ok [pTN1]) "TN1" (statusOnly (some "x")) none
        false []).1 = UpdateResult.writeFailure)
    ∧ ((deleteProduct (ReadState.ok [pTN1]) "TN1" false
        [["app", "uploads", "image1.png"]]).2.1 = ReadState.ok [pTN1]
      ∧ (deleteProduct (ReadState.ok [pTN1]) "TN1" false
        [["app", "uploads", "image1.png"]]).1 = DeleteResult.writeFailure)
    ∧ (deleteProduct (ReadState.ok [pTN1]) "TN1" false
        [["app", "uploads", "image1.png"]]).2.2
        = [["app", "uploads", "image1.png"]].erase
            (joinDirname pTN1.packageImage) :=
  ⟨⟨((write_failure_discards_collection (ReadState.ok [])).1 bodyTN1 none
      "g" "t" "t").1,
    ((write_failure_discards_collection (ReadState.ok [])).1 bodyTN1 none
      "g" "t" "t").2 (by decide)⟩,
   ⟨((write_failure_discards_collection (ReadState.ok [pTN1])).2.1 "TN1"
      (statusOnly (some "x")) none []).1,
    ((write_failure_discards_collection (ReadState.ok [pTN1])).2.1 "TN1"
      (statusOnly (some "x")) none []).2.2 pTN1 (by decide)⟩,
   ⟨((write_failure_discards_collection (ReadState.ok [pTN1])).2.2.1 "TN1"
      [["app", "uploads", "image1.png"]]).1,
    ((write_failure_discards_collection (ReadState.ok [pTN1])).2.2.1 "TN1"
      [["app", "uploads", "image1.png"]]).2 pTN1 (by decide)⟩,
   (write_failure_discards_collection (ReadState.ok [pTN1])).2.2.2 "TN1"
      [["app", "uploads", "image1.png"]] pTN1 (by decide) (by decide)
      (by decide)⟩

/-- C6: a read or parse fault of the backing medium degrades to the
empty collection instead of raising: `readProducts` recovers `[]`, so
`listAll` returns the empty sequence and `getByKey` finds nothing, for
every key. -/
theorem read_fault_degrades_to_empty :
    readProducts ReadState.fault = []
    ∧ listAll ReadState.fault = []
    ∧ ∀ key, getByKey ReadState.fault key = none :=
  ⟨rfl, rfl, fun _ => rfl⟩

/-- C7: an insert with no tracking number supplied creates (201, and
appends to the store) a record whose `trackingNumber` is the generated
token, whose `weight` is the parsed float of the supplied weight string,
with exactly one seeded event `"Package created"`, a `createdAt`
timestamp, and `isGlobal = false`. -/
theorem insert_generated_record_shape (st : ReadState) (body : InsertBody)
    (file : Option String) (gen tsEvent tsCreated : String)
    (hno : body.trackingNumber = none)
    (hfresh : ∀ p ∈ readProducts st, p.trackingNumber ≠ gen) :
    postProduct st body file gen tsEvent tsCreated true
      = (InsertResult.created (mkProductData body file gen tsEvent tsCreated),
         ReadState.ok (readProducts st
           ++ [mkProductData body file gen tsEvent tsCreated]))
    ∧ (mkProductData body file gen tsEvent tsCreated).trackingNumber = gen
    ∧ (mkProductData body file gen tsEvent tsCreated).weight
        = parseFloat body.weight
    ∧ (mkProductData body file gen tsEvent tsCreated).events
        = [{ description := "Package created", timestamp := tsEvent,
             location := "Origin facility", completed := true }]
    ∧ (mkProductData body file gen tsEvent tsCreated).createdAt = tsCreated
    ∧ (mkProductData body file gen tsEvent tsCreated).isGlobal = false := by
  have hkey : (mkProductData body file gen tsEvent tsCreated).trackingNumber
      = gen := by
    simp [mkProductData, jsOr, hno]
  have hany : ((readProducts st).any (fun p => p.trackingNumber
      = (mkProductData body file gen tsEvent tsCreated).trackingNumber))
      = false := by
    simp only [hkey, List.any_eq_false, decide_eq_true_eq]
    exact hfresh
  refine ⟨?_, hkey, rfl, rfl, rfl, rfl⟩
  rw [postProduct_eq, hany]
  simp

/-- Witness for C7: concrete scenario 1 of the spec, with generated token
`123` and timestamps `t1`, `t2`; the parsed weight `2.5` is the exact
decimal `25 / 10 ^ 1`. -/
theorem insert_generated_record_shape_witness :
    (postProduct (ReadState.ok []) body1 none "123" "t1" "t2" true
      = (InsertResult.created (mkProductData body1 none "123" "t1" "t2"),
         ReadState.ok (readProducts (ReadState.ok [])
           ++ [mkProductData body1 none "123" "t1" "t2"]))
    ∧ (mkProductData body1 none "123" "t1" "t2").trackingNumber = "123"
    ∧ (mkProductData body1 none "123" "t1" "t2").weight
        = parseFloat body1.weight
    ∧ (mkProductData body1 none "123" "t1" "t2").events
        = [{ description := "Package created", timestamp := "t1",
             location := "Origin facility", completed := true }]
    ∧ (mkProductData body1 none "123" "t1" "t2").createdAt = "t2"
    ∧ (mkProductData body1 none "123" "t1" "t2").isGlobal = false)
    ∧ parseFloat "2.5" = JSNum.num 25 1 :=
  ⟨insert_generated_record_shape (ReadState.ok []) body1 none "123" "t1" "t2"
      rfl (by decide),
   by decide⟩

/-- C8: the update handler never reads the payload's `trackingNumber`
(src/server.js lines 161-171 spread the prior record and merge every
field except the identity field), so for every existing record and every
update payload — including payloads supplying a `trackingNumber` — the
merged record keeps the prior record's `trackingNumber`. -/
theorem update_preserves_trackingNumber (prior : Product) (body : UpdateBody)
    (file : Option String) :
    (mergeProduct prior body file).trackingNumber = prior.trackingNumber := rfl

/-- Counterexample to C9: the unlink guard is the bare string test
`startsWith("/uploads/")` on the raw reference, but the unlinked path is
`path.join(__dirname, reference)` — so the traversal reference
`/uploads/../products.json` passes the guard while resolving to
`app/products.json`, outside the managed asset directory, and delete
unlinks that file.  The deletion is therefore not restricted to files
under the managed asset directory. -/
theorem delete_asset_traversal_cx :
    (deleteProduct (ReadState.ok [pEvil]) "TNE" true
        [["app", "products.json"]]).2.2 = []
    ∧ joinDirname pEvil.packageImage = ["app", "products.json"]
    ∧ uploadsDir.isPrefixOf (joinDirname pEvil.packageImage) = false := by
  decide

/-- C9 amended: during record delete, the file at
`path.join(__dirname, reference)` is unlinked exactly when the raw
reference string begins with `/uploads/` and the resolved file exists; if
the reference does not begin with `/uploads/` (in particular an external
URL) or the resolved file is absent, the file system is untouched (and
the embedding is total: nothing is raised).  Because the guard tests the
raw string and not the resolved path, a `..`-traversal reference that
begins with `/uploads/` can unlink a file outside the managed
directory. -/
theorem delete_asset_cleanup_guard (st : ReadState) (key : String)
    (wOk : Bool) (fs : List (List String)) :
    (getByKey st key = none → (deleteProduct st key wOk fs).2.2 = fs)
    ∧ ∀ d, getByKey st key = some d →
        (jsStartsWith d.packageImage "/uploads/" = true →
          joinDirname d.packageImage ∈ fs →
          (deleteProduct st key wOk fs).2.2
            = fs.erase (joinDirname d.packageImage))
        ∧ (jsStartsWith d.packageImage "/uploads/" = false →
          (deleteProduct st key wOk fs).2.2 = fs)
        ∧ (joinDirname d.packageImage ∉ fs →
          (deleteProduct st key wOk fs).2.2 = fs) := by
  constructor
  · intro h
    rw [deleteProduct_of_find_none wOk fs (findIndexO_eq_none_of_find?
      (by simpa [getByKey] using h))]
  · intro d h
    obtain ⟨i, hfi, hget, _⟩ := getByKey_some_elim h
    rw [deleteProduct_of_find_some wOk fs hfi hget]
    refine ⟨?_, ?_, ?_⟩
    · intro hpre hmem
      have hc : (jsStartsWith d.packageImage "/uploads/"
          && fs.contains (joinDirname d.packageImage)) = true := by
        rw [Bool.and_eq_true]
        exact ⟨hpre, List.elem_iff.mpr hmem⟩
      rw [hc]
      simp
    · intro hpre
      rw [hpre]
      simp
    · intro hmem
      have hc : fs.contains (joinDirname d.packageImage) = false := by
        rw [Bool.eq_false_iff]
        intro hco
        exact hmem (List.elem_iff.mp hco)
      rw [hc]
      simp

/-- Witness for C9 amended: deleting `TN2`, whose image reference is an
external URL, leaves the file system untouched. -/
theorem delete_asset_cleanup_guard_witness :
    (deleteProduct (ReadState.ok [pTN2]) "TN2" true
      [["app", "uploads", "image1.png"]]).2.2
      = [["app", "uploads", "image1.png"]] :=
  ((delete_asset_cleanup_guard (ReadState.ok [pTN2]) "TN2" true
      [["app", "uploads", "image1.png"]]).2 pTN2 (by decide)).2.1 (by decide)

/-- C10: the update handler performs no file-system call, so an update
that replaces a record's managed `packageImage` — whether by a new file
upload or by a supplied non-empty `imageUrl` — leaves the old asset file
on disk, orphaned (the merged record references the new upload or the
supplied URL), because asset cleanup happens only in record delete. -/
theorem update_orphans_replaced_asset (st : ReadState) (key : String)
    (body : UpdateBody) (wOk : Bool) (fs : List (List String))
    (d : Product) (h : getByKey st key = some d)
    (_hmanaged : jsStartsWith d.packageImage "/uploads/" = true)
    (hmem : joinDirname d.packageImage ∈ fs) :
    (∀ file, (putProduct st key body file wOk fs).2.2 = fs
      ∧ joinDirname d.packageImage
          ∈ (putProduct st key body file wOk fs).2.2)
    ∧ (∀ newFile res, (putProduct st key body (some newFile) wOk fs).1
        = UpdateResult.updated res →
        res.packageImage = "/uploads/" ++ newFile)
    ∧ (∀ u res, body.imageUrl = some u → u ≠ "" →
        (putProduct st key body none wOk fs).1 = UpdateResult.updated res →
        res.packageImage = u) := by
  obtain ⟨i, hfi, hget, _⟩ := getByKey_some_elim h
  refine ⟨?_, ?_, ?_⟩
  · intro file
    rw [putProduct_of_find_some body file wOk fs hfi hget]
    exact ⟨rfl, hmem⟩
  · intro newFile res hres
    rw [putProduct_of_find_some body (some newFile) wOk fs hfi hget] at hres
    cases wOk with
    | false => simp at hres
    | true =>
      simp only [if_true, ite_true, UpdateResult.updated.injEq] at hres
      subst hres
      rfl
  · intro u res hu hne hres
    rw [putProduct_of_find_some body none wOk fs hfi hget] at hres
    cases wOk with
    | false => simp at hres
    | true =>
      simp only [if_true, ite_true, UpdateResult.updated.injEq] at hres
      subst hres
      show jsOr body.imageUrl d.packageImage = u
      rw [hu]
      exact jsOr_of_some _ hne

/-- Witness for C10: replacing `TN1`'s managed image either by a new
upload `image2.png` or by the external URL of `bodyImgUrl` leaves the
resolved file `app/uploads/image1.png` on disk, while the updated record
references the new upload or the supplied URL. -/
theorem update_orphans_replaced_asset_witness :
    ((putProduct (ReadState.ok [pTN1]) "TN1" bodyImgUrl none true
        [["app", "uploads", "image1.png"]]).2.2
        = [["app", "uploads", "image1.png"]]
      ∧ joinDirname pTN1.packageImage ∈ (putProduct (ReadState.ok [pTN1])
          "TN1" bodyImgUrl none true [["app", "uploads", "image1.png"]]).2.2)
    ∧ (∀ res, (putProduct (ReadState.ok [pTN1]) "TN1" bodyImgUrl
        (some "image2.png") true [["app", "uploads", "image1.png"]]).1
        = UpdateResult.updated res →
        res.packageImage = "/uploads/" ++ "image2.png")
    ∧ (∀ res, (putProduct (ReadState.ok [pTN1]) "TN1" bodyImgUrl none true
        [["app", "uploads", "image1.png"]]).1 = UpdateResult.updated res →
        res.packageImage = "https://new.example/img.png") := by
  have H := update_orphans_replaced_asset (ReadState.ok [pTN1]) "TN1"
    bodyImgUrl true [["app", "uploads", "image1.png"]] pTN1 (by decide)
    (by decide) (by decide)
  exact ⟨H.1 none, fun res hres => H.2.1 "image2.png" res hres,
    fun res hres => H.2.2 "https://new.example/img.png" res rfl (by decide)
      hres⟩

end Fedex
